import Mathlib

/-!
Shallow embedding of the MyVoice survey application (src/app.py): the intake
component (survey form assembly, validation, submission) and the reporting
component (flattening, per-question distributions, concern scores, sentiment
classification, satisfaction metric, time trend, session/date filtering).

Machine reals of the source (Python floats) are modelled as exact rationals;
Python dicts are modelled as association lists with unique keys (first-binding
lookup); a pandas cell that is absent (NaN) is modelled as an `Option` that is
`none`, so that equality and membership tests against it are false, exactly as
NaN comparisons behave in the source.
-/

namespace MyVoice

/-- The identifiers of the twelve static survey questions, in the order of the
SURVEY_QUESTIONS table of the source. -/
def questionIds : List String :=
  ["Q1_Retention_Transformation", "Q2_Workload_Stress", "Q3_Decision_Making",
   "Q4_Input_Involvement", "Q5_Performance_Recognition", "Q6_Personal_Growth",
   "Q7_Tools_Resources", "Q8_Follow_up_Accountability", "Q9_Work_Environment",
   "Q10_Open_Communication", "Q11_AI_Future_Readiness", "Q12_Most_Important_Action"]

/-- First-binding lookup in an association list, the model of a Python dict
access `d[k]` (dicts have unique keys, so the first binding is the binding). -/
def alookup (k : String) : List (String × String) → Option String
  | [] => none
  | p :: l => if p.1 = k then some p.2 else alookup k l

/-- Model of Python `not s.strip()`: the string has no non-whitespace
character (true in particular for the empty string). -/
def isBlank (s : String) : Bool :=
  s.data.all Char.isWhitespace

/-- Model of Python `s.startswith(pre)`: the characters of `pre` are a prefix
of the characters of `s`. -/
def beginsWith (pre s : String) : Bool :=
  pre.data.isPrefixOf s.data

/-- Model of Python `c in s` for a single character `c`. -/
def hasChar (c : Char) (s : String) : Bool :=
  s.data.contains c

/-- One persisted survey submission (`response_data` built at lines 229-234 of
src/app.py): session id, timestamp, the answers dict and the custom-text dict. -/
structure ResponseRecord where
  session_id : String
  timestamp : Nat
  responses : List (String × String)
  custom_responses : List (String × String)
deriving DecidableEq

/-- A selection made in the form for one question: one of the lettered choice
codes, or the "Other (please specify)" escape with the typed free text. -/
inductive Selection where
  | code (c : String)
  | other (text : String)
deriving DecidableEq

/-- The `responses` dict assembled by the form loop (lines 197-207 of
src/app.py): the choice code, or the sentinel "Other" when the escape was
chosen. -/
def buildResponses (sels : List (String × Selection)) : List (String × String) :=
  sels.map (fun qs => (qs.1, match qs.2 with | .code c => c | .other _ => "Other"))

/-- The `custom_responses` dict assembled by the same loop: the typed free
text when the escape was chosen, and the empty string otherwise (line 208). -/
def buildCustoms (sels : List (String × Selection)) : List (String × String) :=
  sels.map (fun qs => (qs.1, match qs.2 with | .code _ => "" | .other t => t))

/-- The validation loop at lines 221-225 of src/app.py: the questions whose
answer is "Other" while the accompanying free text is blank. -/
def offendingQuestions (responses custom_responses : List (String × String)) :
    List String :=
  (responses.filter
    (fun qr => qr.2 = "Other" && isBlank ((alookup qr.1 custom_responses).getD ""))).map
    Prod.fst

/-- The submit action (lines 219-237 of src/app.py): when validation passes the
assembled record is handed to the store, otherwise nothing is persisted. -/
def submitResponse (sid : String) (ts : Nat)
    (responses custom_responses : List (String × String)) : Option ResponseRecord :=
  if offendingQuestions responses custom_responses = [] then
    some ⟨sid, ts, responses, custom_responses⟩
  else none

/-- One flattened row of the analysis table: session id, timestamp, and the
cells keyed by column name.  A column missing from `cells` is a NaN cell. -/
structure FlatRow where
  session_id : String
  timestamp : Nat
  cells : List (String × String)
deriving DecidableEq

/-- Cell access: `none` models a NaN cell of the DataFrame. -/
def FlatRow.get (r : FlatRow) (c : String) : Option String :=
  alookup c r.cells

/-- Flattening of one record (lines 320-331 of src/app.py): the answers dict,
then one suffixed custom-text column per non-blank custom response. -/
def flattenRecord (rec : ResponseRecord) : FlatRow :=
  { session_id := rec.session_id
    timestamp := rec.timestamp
    cells := rec.responses ++
      (rec.custom_responses.filter (fun kv => !isBlank kv.2)).map
        (fun kv => (kv.1 ++ "_custom", kv.2)) }

/-- Duplicate removal keeping first occurrences, relative to an accumulator of
already-seen elements. -/
def dedupAux {α : Type} [DecidableEq α] (seen : List α) : List α → List α
  | [] => []
  | a :: l => if a ∈ seen then dedupAux seen l else a :: dedupAux (a :: seen) l

/-- Duplicate removal keeping first occurrences, the column order a DataFrame
built from a list of dicts uses (first appearance across the rows). -/
def dedupKeep {α : Type} [DecidableEq α] (l : List α) : List α :=
  dedupAux [] l

/-- The columns of the analysis DataFrame: session id and timestamp first,
then every cell key in order of first appearance. -/
def dfColumns (rows : List FlatRow) : List String :=
  "session_id" :: "timestamp" :: dedupKeep ((rows.map (fun r => r.cells.map Prod.fst)).flatten)

/-- The columns the aggregate loops iterate over: names starting with "Q"
(lines 356, 369 and 416 of src/app.py). -/
def qColumns (rows : List FlatRow) : List String :=
  (dfColumns rows).filter (fun c => beginsWith "Q" c)

/-- The columns the sentiment loop iterates over: names starting with "Q" and
containing an underscore (line 279 of src/app.py). -/
def sentimentCols (rows : List FlatRow) : List String :=
  (dfColumns rows).filter (fun c => beginsWith "Q" c && hasChar '_' c)

/-- Number of rows whose cell in column `c` equals `v`, the model of
`len(df[df[c] == v])`; a NaN cell never matches. -/
def countVal (rows : List FlatRow) (c v : String) : Nat :=
  rows.countP (fun r => decide (r.get c = some v))

/-- Whether the cell of `r` in column `c` is one of `vs`, the model of
`df[c].isin(vs)` for one row; a NaN cell is never in `vs`. -/
def cellIn (r : FlatRow) (c : String) (vs : List String) : Bool :=
  match r.get c with
  | some v => decide (v ∈ vs)
  | none => false

/-- Number of rows whose cell in column `c` is one of `vs`, the model of
`len(df[df[c].isin(vs)])`. -/
def countIn (rows : List FlatRow) (c : String) (vs : List String) : Nat :=
  rows.countP (fun r => cellIn r c vs)

/-- The per-question distribution percentage of line 384 of src/app.py:
`(count / len(analysis_df)) * 100` (in rationals, division by a zero total
yields 0). -/
def distributionPct (rows : List FlatRow) (c v : String) : ℚ :=
  (countVal rows c v : ℚ) / (rows.length : ℚ) * 100

/-- The distinct values present in column `c`, the index of `value_counts()`. -/
def presentValues (rows : List FlatRow) (c : String) : List String :=
  dedupKeep (rows.filterMap (fun r => r.get c))

/-- The concern score of line 418-419 of src/app.py:
`(concern_count / len(analysis_df)) * 100` with concern codes C and D. -/
def concernScore (rows : List FlatRow) (c : String) : ℚ :=
  (countIn rows c ["C", "D"] : ℚ) / (rows.length : ℚ) * 100

/-- The `concern_scores` dict in its insertion order (lines 414-419). -/
def concernList (rows : List FlatRow) : List (String × ℚ) :=
  (qColumns rows).map (fun c => (c, concernScore rows c))

/-- Descending comparison on the score component, the order of
`sorted(..., key=lambda x: x[1], reverse=True)` at line 422. -/
def descR (a b : String × ℚ) : Prop :=
  b.2 ≤ a.2

instance : DecidableRel descR :=
  fun a b => inferInstanceAs (Decidable (b.2 ≤ a.2))

instance : IsTotal (String × ℚ) descR :=
  ⟨fun a b => le_total b.2 a.2⟩

instance : IsTrans (String × ℚ) descR :=
  ⟨fun _ _ _ hab hbc => le_trans hbc hab⟩

/-- The ranked concern list of line 422: a stable descending sort by score
(Python's sort is stable, with `reverse=True` keeping equal keys in their
original order, which insertion sort with this relation reproduces). -/
def sortedConcerns (rows : List FlatRow) : List (String × ℚ) :=
  (concernList rows).insertionSort descR

/-- Sentiment classes of the overall sentiment chart. -/
inductive Sentiment where
  | Positive
  | Neutral
  | Concern
deriving DecidableEq

/-- Classification of one column (lines 280-288 of src/app.py). -/
def classifyColumn (rows : List FlatRow) (c : String) : Sentiment :=
  let pos := countIn rows c ["A", "B"]
  let neg := countIn rows c ["C", "D"]
  if neg < pos then .Positive
  else if pos < neg then .Concern
  else .Neutral

/-- One iteration of the sentiment loop (lines 280-288 of src/app.py):
append the column to the list of its class. -/
def sentimentStep (rows : List FlatRow)
    (acc : List String × List String × List String) (c : String) :
    List String × List String × List String :=
  let pos := countIn rows c ["A", "B"]
  let neg := countIn rows c ["C", "D"]
  if neg < pos then (acc.1 ++ [c], acc.2.1, acc.2.2)
  else if pos < neg then (acc.1, acc.2.1, acc.2.2 ++ [c])
  else (acc.1, acc.2.1 ++ [c], acc.2.2)

/-- The three accumulating lists of `create_overall_sentiment_chart`
(lines 274-288 of src/app.py), built by the loop in column order. -/
def sentimentLists (rows : List FlatRow) :
    List String × List String × List String :=
  (sentimentCols rows).foldl (sentimentStep rows) ([], [], [])

/-- The sentiment chart data (line 292): the lengths of the three lists, as
(positive, neutral, concern). -/
def sentimentCounts (rows : List FlatRow) : Nat × Nat × Nat :=
  ((sentimentLists rows).1.length,
   (sentimentLists rows).2.1.length,
   (sentimentLists rows).2.2.length)

/-- The overall satisfaction metric of lines 355-357 of src/app.py: count of
cells equal to "A" over every column starting with "Q", divided by
`len(analysis_df) * 12`, guarded to 0 on an empty total. -/
def satisfactionPct (rows : List FlatRow) : ℚ :=
  let total : Nat := rows.length * 12
  let aCount : Nat := ((qColumns rows).map (fun c => countVal rows c "A")).sum
  if 0 < total then (aCount : ℚ) / (total : ℚ) * 100 else 0

/-- The retention-concern metric of lines 343-344 of src/app.py. -/
def retentionConcernPct (rows : List FlatRow) : ℚ :=
  if 0 < rows.length then
    (countIn rows "Q1_Retention_Transformation" ["C", "D"] : ℚ) / (rows.length : ℚ) * 100
  else 0

/-- The high-stress metric of lines 349-350 of src/app.py. -/
def highStressPct (rows : List FlatRow) : ℚ :=
  if 0 < rows.length then
    (countIn rows "Q2_Workload_Stress" ["C", "D"] : ℚ) / (rows.length : ℚ) * 100
  else 0

/-- Calendar-date bucket of a timestamp (seconds), for the trend chart. -/
def dateOf (ts : Nat) : Nat :=
  ts / 86400

/-- The time trend of lines 448-451 of src/app.py: rows grouped by the date
portion of the timestamp, emitted as (date, count) sorted chronologically. -/
def trendCounts (rows : List FlatRow) : List (Nat × Nat) :=
  ((dedupKeep (rows.map (fun r => dateOf r.timestamp))).insertionSort (· ≤ ·)).map
    (fun d => (d, rows.countP (fun r => decide (dateOf r.timestamp = d))))

/-- Everything the dashboard computes from the analysis table before the Raw
Data tab: the four header metrics, the distribution tables, the concern
ranking, the sentiment counts and the time trend. -/
structure Report where
  totalResponses : Nat
  retentionConcern : ℚ
  highStress : ℚ
  satisfaction : ℚ
  distTable : List (String × List (String × ℚ))
  ranking : List (String × ℚ)
  sentiment : Nat × Nat × Nat
  trend : List (Nat × Nat)
deriving DecidableEq

/-- The aggregates of `analytics_dashboard`, all computed from the full row
set it is given. -/
def computeReport (rows : List FlatRow) : Report :=
  { totalResponses := rows.length
    retentionConcern := retentionConcernPct rows
    highStress := highStressPct rows
    satisfaction := satisfactionPct rows
    distTable := (qColumns rows).map
      (fun c => (c, (presentValues rows c).map (fun v => (v, distributionPct rows c v))))
    ranking := sortedConcerns rows
    sentiment := sentimentCounts rows
    trend := trendCounts rows }

/-- The session-id restriction of line 484 of src/app.py:
`analysis_df[analysis_df['session_id'].isin(session_filter)]`. -/
def filterBySession (rows : List FlatRow) (sessionFilter : List String) : List FlatRow :=
  rows.filter (fun r => decide (r.session_id ∈ sessionFilter))

/-- Outcome of one dashboard rendering: either the no-data warning of lines
314-316 of src/app.py, or the rendered aggregates together with the filtered
raw-data table of the fourth tab. -/
inductive DashboardResult where
  | noData
  | rendered (report : Report) (rawData : List FlatRow)
deriving DecidableEq

/-- The `analytics_dashboard` function of src/app.py: early no-data return on
an empty record set; otherwise every aggregate is computed from the full
flattened table, and the session filter is applied only to the raw-data view.
The collected date range (third argument) is never read by the source, which
this model reproduces by ignoring it. -/
def analyticsDashboard (records : List ResponseRecord) (sessionFilter : List String)
    (_dateRange : Nat × Nat) : DashboardResult :=
  if records.isEmpty then .noData
  else
    let rows := records.map flattenRecord
    .rendered (computeReport rows) (filterBySession rows sessionFilter)

/-! ### Helper lemmas about the embedded operations -/

theorem mem_dedupAux {α : Type} [DecidableEq α] (l : List α) :
    ∀ (seen : List α) (x : α), x ∈ dedupAux seen l ↔ x ∈ l ∧ x ∉ seen := by
  induction l with
  | nil => intro seen x; simp [dedupAux]
  | cons a l ih =>
    intro seen x
    by_cases ha : a ∈ seen
    · rw [dedupAux, if_pos ha, ih seen x, List.mem_cons]
      constructor
      · rintro ⟨hx, hs⟩
        exact ⟨Or.inr hx, hs⟩
      · rintro ⟨rfl | hx, hs⟩
        · exact absurd ha hs
        · exact ⟨hx, hs⟩
    · rw [dedupAux, if_neg ha]
      simp only [List.mem_cons, ih (a :: seen) x]
      by_cases hxa : x = a
      · subst hxa
        simp [ha]
      · simp [hxa]

theorem mem_dedupKeep {α : Type} [DecidableEq α] (l : List α) (x : α) :
    x ∈ dedupKeep l ↔ x ∈ l := by
  simp [dedupKeep, mem_dedupAux]

theorem nodup_dedupAux {α : Type} [DecidableEq α] (l : List α) :
    ∀ seen : List α, (dedupAux seen l).Nodup := by
  induction l with
  | nil => intro seen; simp [dedupAux]
  | cons a l ih =>
    intro seen
    by_cases ha : a ∈ seen
    · rw [dedupAux, if_pos ha]
      exact ih seen
    · rw [dedupAux, if_neg ha]
      refine List.nodup_cons.mpr ⟨?_, ih (a :: seen)⟩
      intro hmem
      exact ((mem_dedupAux l (a :: seen) a).mp hmem).2 (List.mem_cons_self a seen)

theorem nodup_dedupKeep {α : Type} [DecidableEq α] (l : List α) :
    (dedupKeep l).Nodup :=
  nodup_dedupAux l []

theorem countP_or_disjoint {α : Type} (l : List α) (p q : α → Bool)
    (h : ∀ x ∈ l, ¬(p x = true ∧ q x = true)) :
    l.countP (fun x => p x || q x) = l.countP p + l.countP q := by
  induction l with
  | nil => simp
  | cons a l ih =>
    have ha := h a (List.mem_cons_self a l)
    have ih' := ih (fun x hx => h x (List.mem_cons_of_mem _ hx))
    simp only [List.countP_cons, ih']
    cases hp : p a <;> cases hq : q a <;> simp [hp, hq] at ha ⊢ <;> omega

theorem countP_three_way {α : Type} (l : List α) (f : α → Sentiment) :
    l.countP (fun x => decide (f x = .Positive))
      + l.countP (fun x => decide (f x = .Neutral))
      + l.countP (fun x => decide (f x = .Concern)) = l.length := by
  induction l with
  | nil => simp
  | cons a l ih =>
    simp only [List.countP_cons, List.length_cons]
    cases hf : f a <;> simp [hf] <;> omega

theorem length_le_of_nodup_subset {α : Type} [DecidableEq α] {l m : List α}
    (hnd : l.Nodup) (h : ∀ x ∈ l, x ∈ m) : l.length ≤ m.length := by
  have h1 : l.toFinset.card = l.length := List.toFinset_card_of_nodup hnd
  have h2 : l.toFinset ⊆ m.toFinset := by
    intro x hx
    exact List.mem_toFinset.mpr (h x (List.mem_toFinset.mp hx))
  calc l.length = l.toFinset.card := h1.symm
    _ ≤ m.toFinset.card := Finset.card_le_card h2
    _ ≤ m.length := List.toFinset_card_le m

theorem alookup_eq_some_mem {k v : String} :
    ∀ {l : List (String × String)}, alookup k l = some v → (k, v) ∈ l := by
  intro l
  induction l with
  | nil => intro h; simp [alookup] at h
  | cons p l ih =>
    intro h
    by_cases hp : p.1 = k
    · simp only [alookup, if_pos hp] at h
      refine List.mem_cons.mpr (Or.inl ?_)
      obtain ⟨a, b⟩ := p
      cases hp
      simpa using h.symm
    · simp only [alookup, if_neg hp] at h
      exact List.mem_cons_of_mem _ (ih h)

theorem alookup_of_mem_nodup {k v : String} :
    ∀ {l : List (String × String)}, (l.map Prod.fst).Nodup → (k, v) ∈ l →
      alookup k l = some v := by
  intro l
  induction l with
  | nil => intro _ h; simp at h
  | cons p l ih =>
    intro hnd h
    simp only [List.map_cons] at hnd
    have hnd' := List.nodup_cons.mp hnd
    rcases List.mem_cons.mp h with rfl | h
    · simp [alookup]
    · have hk : p.1 ≠ k := by
        intro he
        have hkm : k ∈ l.map Prod.fst := List.mem_map.mpr ⟨(k, v), h, rfl⟩
        exact hnd'.1 (by rw [he]; exact hkm)
      simp only [alookup, if_neg hk]
      exact ih hnd'.2 h

theorem alookup_eq_none {k : String} :
    ∀ {l : List (String × String)}, (∀ p ∈ l, p.1 ≠ k) → alookup k l = none := by
  intro l
  induction l with
  | nil => intro _; rfl
  | cons p l ih =>
    intro h
    simp only [alookup, if_neg (h p (List.mem_cons_self p l))]
    exact ih (fun q hq => h q (List.mem_cons_of_mem _ hq))

theorem alookup_append_of_none {k : String} {l₁ l₂ : List (String × String)}
    (h : alookup k l₁ = none) : alookup k (l₁ ++ l₂) = alookup k l₂ := by
  induction l₁ with
  | nil => rfl
  | cons p l ih =>
    by_cases hp : p.1 = k
    · simp [alookup, if_pos hp] at h
    · simp only [alookup, if_neg hp] at h
      simpa only [List.cons_append, alookup, if_neg hp] using ih h

theorem alookup_filter {k v : String} {p : String × String → Bool} :
    ∀ {l : List (String × String)}, alookup k l = some v → p (k, v) = true →
      alookup k (l.filter p) = some v := by
  intro l
  induction l with
  | nil => intro h _; simp [alookup] at h
  | cons q l ih =>
    intro h hp
    by_cases hq : q.1 = k
    · have hqkv : q = (k, v) := by
        obtain ⟨a, b⟩ := q
        simp only [alookup] at h hq
        rw [if_pos hq] at h
        simp_all
      subst hqkv
      rw [List.filter_cons, if_pos hp]
      simp [alookup]
    · simp only [alookup, if_neg hq] at h
      rw [List.filter_cons]
      by_cases hpq : p q = true
      · rw [if_pos hpq]
        simp only [alookup, if_neg hq]
        exact ih h hp
      · rw [if_neg hpq]
        exact ih h hp

theorem string_append_cancel {a b s : String} (h : a ++ s = b ++ s) : a = b := by
  have hd : a.data ++ s.data = b.data ++ s.data := by
    rw [← String.data_append, ← String.data_append, h]
  have : a.data = b.data := List.append_cancel_right hd
  cases a
  cases b
  exact congrArg String.mk this

theorem sum_countVal (rows : List FlatRow) (q : String) :
    ∀ vs : List String, vs.Nodup →
      ((vs.map (fun v => countVal rows q v)).sum)
        = rows.countP (fun r => decide (∃ v ∈ vs, r.get q = some v)) := by
  intro vs
  induction vs with
  | nil =>
    intro _
    simp
  | cons v vs ih =>
    intro hnd
    have hnd' := List.nodup_cons.mp hnd
    rw [List.map_cons, List.sum_cons, ih hnd'.2, countVal]
    have hdis : ∀ r ∈ rows,
        ¬((decide (r.get q = some v)) = true
          ∧ (decide (∃ u ∈ vs, r.get q = some u)) = true) := by
      intro r _ ⟨h1, h2⟩
      rw [decide_eq_true_eq] at h1 h2
      obtain ⟨u, hu, hget⟩ := h2
      rw [h1] at hget
      cases Option.some.inj hget
      exact hnd'.1 hu
    rw [← countP_or_disjoint rows _ _ hdis]
    apply List.countP_congr
    intro r _
    simp [List.exists_mem_cons_iff]

theorem presentValues_complete {rows : List FlatRow} {q : String} {r : FlatRow}
    {v : String} (hr : r ∈ rows) (hv : r.get q = some v) :
    v ∈ presentValues rows q := by
  rw [presentValues, mem_dedupKeep]
  exact List.mem_filterMap.mpr ⟨r, hr, hv⟩

theorem classify_iff (rows : List FlatRow) (c : String) :
    (classifyColumn rows c = .Positive
      ↔ countIn rows c ["C", "D"] < countIn rows c ["A", "B"])
    ∧ (classifyColumn rows c = .Concern
      ↔ countIn rows c ["A", "B"] < countIn rows c ["C", "D"])
    ∧ (classifyColumn rows c = .Neutral
      ↔ countIn rows c ["A", "B"] = countIn rows c ["C", "D"]) := by
  simp only [classifyColumn]
  split_ifs with h1 h2 <;> refine ⟨?_, ?_, ?_⟩ <;> simp <;> omega

theorem foldl_sentimentStep (rows : List FlatRow) :
    ∀ (cols : List String) (acc : List String × List String × List String),
      cols.foldl (sentimentStep rows) acc
        = (acc.1 ++ cols.filter (fun c => decide (classifyColumn rows c = .Positive)),
           acc.2.1 ++ cols.filter (fun c => decide (classifyColumn rows c = .Neutral)),
           acc.2.2 ++ cols.filter (fun c => decide (classifyColumn rows c = .Concern))) := by
  intro cols
  induction cols with
  | nil => intro acc; simp
  | cons c cols ih =>
    intro acc
    rw [List.foldl_cons, ih]
    by_cases h1 : countIn rows c ["C", "D"] < countIn rows c ["A", "B"]
    · have hcl : classifyColumn rows c = .Positive := (classify_iff rows c).1.mpr h1
      simp [sentimentStep, if_pos h1, List.filter_cons, hcl]
    · by_cases h2 : countIn rows c ["A", "B"] < countIn rows c ["C", "D"]
      · have hcl : classifyColumn rows c = .Concern := (classify_iff rows c).2.1.mpr h2
        simp [sentimentStep, if_neg h1, if_pos h2, List.filter_cons, hcl]
      · have hcl : classifyColumn rows c = .Neutral :=
          (classify_iff rows c).2.2.mpr (by omega)
        simp [sentimentStep, if_neg h1, if_neg h2, List.filter_cons, hcl]

theorem sentimentCounts_eq (rows : List FlatRow) :
    sentimentCounts rows
      = ((sentimentCols rows).countP (fun c => decide (classifyColumn rows c = .Positive)),
         (sentimentCols rows).countP (fun c => decide (classifyColumn rows c = .Neutral)),
         (sentimentCols rows).countP (fun c => decide (classifyColumn rows c = .Concern))) := by
  rw [sentimentCounts, sentimentLists, foldl_sentimentStep]
  simp [List.countP_eq_length_filter]

theorem alookup_map_suffix (k sfx : String) :
    ∀ (l : List (String × String)),
      alookup (k ++ sfx) (l.map (fun kv => (kv.1 ++ sfx, kv.2))) = alookup k l := by
  intro l
  induction l with
  | nil => rfl
  | cons p l ih =>
    by_cases hp : p.1 = k
    · subst hp
      simp [alookup, List.map_cons]
    · have hne : p.1 ++ sfx ≠ k ++ sfx := fun he => hp (string_append_cancel he)
      simp only [List.map_cons, alookup, if_neg hne, if_neg hp]
      exact ih

theorem cellIn_false_of_superset {r : FlatRow} {c : String} {vs ws : List String}
    (hsub : ∀ v ∈ ws, v ∈ vs) (h : cellIn r c vs = false) : cellIn r c ws = false := by
  cases hg : r.get c with
  | none => simp [cellIn, hg]
  | some v =>
    simp only [cellIn, hg, decide_eq_false_iff_not] at h ⊢
    intro hvw
    exact h (hsub v hvw)

theorem alookup_buildCustoms_other (q t : String) :
    ∀ sels : List (String × Selection),
      alookup q (buildCustoms sels) = some t → t ≠ "" →
        alookup q (buildResponses sels) = some "Other" := by
  intro sels
  induction sels with
  | nil =>
    intro hc _
    simp [buildCustoms, alookup] at hc
  | cons p sels ih =>
    intro hc hne
    obtain ⟨pq, ps⟩ := p
    by_cases hq : pq = q
    · subst hq
      cases ps with
      | code ch =>
        simp only [buildCustoms, List.map_cons, alookup, if_pos rfl] at hc
        exact absurd (Option.some.inj hc).symm hne
      | other txt =>
        simp [buildResponses, alookup]
    · simp only [buildCustoms, List.map_cons, alookup, if_neg hq] at hc
      simp only [buildResponses, List.map_cons, alookup, if_neg hq]
      exact ih hc hne

/-! ### Concrete inputs used by witnesses and counterexamples -/

/-- A record answering every question with choice code A. -/
def recAllA : ResponseRecord :=
  ⟨"s1", 0, questionIds.map (fun q => (q, "A")), questionIds.map (fun q => (q, ""))⟩

/-- A record answering every question with choice code C. -/
def recAllC : ResponseRecord :=
  ⟨"s2", 0, questionIds.map (fun q => (q, "C")), questionIds.map (fun q => (q, ""))⟩

/-- The flattened two-record data set of `recAllA` and `recAllC`. -/
def rowsAC : List FlatRow :=
  List.map flattenRecord [recAllA, recAllC]

/-- The scenario of the specification: three rows answering question Q1 with
A, C and D respectively. -/
def rowsScenario : List FlatRow :=
  [⟨"s1", 0, [("Q1_Retention_Transformation", "A")]⟩,
   ⟨"s2", 0, [("Q1_Retention_Transformation", "C")]⟩,
   ⟨"s3", 0, [("Q1_Retention_Transformation", "D")]⟩]

/-- One row answering two questions with A: both concern scores tie at 0. -/
def rowsTie : List FlatRow :=
  [⟨"s1", 0, [("Q1_Retention_Transformation", "A"), ("Q2_Workload_Stress", "A")]⟩]

/-- Two distinct rows sharing one session id (session ids are random short
tokens and not guaranteed unique). -/
def rowsDupSession : List FlatRow :=
  [⟨"dup", 0, []⟩, ⟨"dup", 86400, []⟩]

/-- Two rows with distinct session ids. -/
def rowsTwoSessions : List FlatRow :=
  [⟨"s1", 0, []⟩, ⟨"s2", 0, []⟩]

/-- A record choosing "Other" for Q1 with custom text that is literally the
letter A, and choice code B everywhere else. -/
def recCustomA : ResponseRecord :=
  ⟨"s1", 0,
   questionIds.map (fun q => (q, if q = "Q1_Retention_Transformation" then "Other" else "B")),
   questionIds.map (fun q => (q, if q = "Q1_Retention_Transformation" then "A" else ""))⟩

/-- The flattened one-record data set of `recCustomA`. -/
def rowsCustomA : List FlatRow :=
  List.map flattenRecord [recCustomA]

/-- The flattened one-record data set of `recAllA`. -/
def rowsAllA : List FlatRow :=
  List.map flattenRecord [recAllA]

/-- The overall satisfaction metric as the specification words it: cells equal
to A are counted across the questions of the static question list only, and
the denominator uses the length of that list.  Stated for comparison with
`satisfactionPct`, which the source computes over every column starting with
"Q". -/
def satisfactionClaimed (rows : List FlatRow) : ℚ :=
  let total : Nat := rows.length * questionIds.length
  let aCount : Nat := (questionIds.map (fun c => countVal rows c "A")).sum
  if 0 < total then (aCount : ℚ) / (total : ℚ) * 100 else 0

/-! ### Claim theorems -/

/-- C1 counterexample: the dashboard report is computed over the unfiltered
rows, so with two sessions and a filter selecting only the first, the
satisfaction the dashboard reports differs from the same aggregate computed
over the filtered rows; the filter is therefore not applied before the
aggregates. -/
theorem filters_before_aggregates_cex :
    analyticsDashboard [recAllA, recAllC] ["s1"] (0, 0)
      = .rendered (computeReport rowsAC) (filterBySession rowsAC ["s1"])
    ∧ (computeReport rowsAC).satisfaction
      ≠ (computeReport (filterBySession rowsAC ["s1"])).satisfaction := by
  refine ⟨rfl, ?_⟩
  have e1 : satisfactionPct rowsAC = 50 := by
    have h : ((qColumns rowsAC).map (fun c => countVal rowsAC c "A")).sum = 12 := by decide
    have hl : rowsAC.length = 2 := by decide
    simp only [satisfactionPct, h, hl]
    norm_num
  have e2 : satisfactionPct (filterBySession rowsAC ["s1"]) = 100 := by
    have h : ((qColumns (filterBySession rowsAC ["s1"])).map
        (fun c => countVal (filterBySession rowsAC ["s1"]) c "A")).sum = 12 := by decide
    have hl : (filterBySession rowsAC ["s1"]).length = 1 := by decide
    simp only [satisfactionPct, h, hl]
    norm_num
  show satisfactionPct rowsAC ≠ satisfactionPct (filterBySession rowsAC ["s1"])
  rw [e1, e2]
  norm_num

/-- C1 amended: the session-id restriction is applied only to the raw-data
view of the fourth tab (whose rows all satisfy the filter), every aggregate of
the report is computed over the unfiltered flattened rows, and the collected
date range is never applied to anything. -/
theorem filters_applied_to_raw_only (records : List ResponseRecord)
    (sessionFilter : List String) (dr dr' : Nat × Nat) (h : records ≠ []) :
    analyticsDashboard records sessionFilter dr
      = .rendered (computeReport (records.map flattenRecord))
          (filterBySession (records.map flattenRecord) sessionFilter)
    ∧ analyticsDashboard records sessionFilter dr
      = analyticsDashboard records sessionFilter dr'
    ∧ ∀ r ∈ filterBySession (records.map flattenRecord) sessionFilter,
        r.session_id ∈ sessionFilter := by
  have hne : records.isEmpty = false := by
    cases records
    · exact absurd rfl h
    · rfl
  refine ⟨?_, rfl, ?_⟩
  · rw [analyticsDashboard, hne]
    simp
  · intro r hr
    exact of_decide_eq_true (List.mem_filter.mp hr).2

/-- C1 amended witness: on the concrete two-record data set the dashboard
renders the report of the unfiltered rows next to the filtered raw data. -/
theorem filters_applied_to_raw_only_witness :
    analyticsDashboard [recAllA, recAllC] ["s1"] (0, 0)
      = .rendered (computeReport (List.map flattenRecord [recAllA, recAllC]))
          (filterBySession (List.map flattenRecord [recAllA, recAllC]) ["s1"]) :=
  (filters_applied_to_raw_only [recAllA, recAllC] ["s1"] (0, 0) (1, 1) (by decide)).1

/-- C2 counterexample: session ids are not unique, so a filter set of size 1
can return 2 rows (all of whose session ids are in the filter). -/
theorem session_filter_k_rows_cex :
    (["dup"] : List String).length < (filterBySession rowsDupSession ["dup"]).length
    ∧ (filterBySession rowsDupSession ["dup"]).map (fun r => r.session_id)
        = ["dup", "dup"] :=
  ⟨by decide, by decide⟩

/-- C2 amended: every row returned by the session filter has its session id in
the filter set, and when the rows' session ids are pairwise distinct a filter
set of size k returns at most k rows. -/
theorem session_filter_subset_bound (rows : List FlatRow) (sessionFilter : List String) :
    (∀ r ∈ filterBySession rows sessionFilter, r.session_id ∈ sessionFilter)
    ∧ ((rows.map (fun r => r.session_id)).Nodup →
        (filterBySession rows sessionFilter).length ≤ sessionFilter.length) := by
  constructor
  · intro r hr
    exact of_decide_eq_true (List.mem_filter.mp hr).2
  · intro hnd
    have hsub : (filterBySession rows sessionFilter).Sublist rows :=
      List.filter_sublist _
    have hmapsub : ((filterBySession rows sessionFilter).map (fun r => r.session_id)).Sublist
        (rows.map (fun r => r.session_id)) := hsub.map _
    have hnd2 : ((filterBySession rows sessionFilter).map (fun r => r.session_id)).Nodup :=
      hnd.sublist hmapsub
    have hss : ∀ x ∈ (filterBySession rows sessionFilter).map (fun r => r.session_id),
        x ∈ sessionFilter := by
      intro x hx
      obtain ⟨r, hr, rfl⟩ := List.mem_map.mp hx
      exact of_decide_eq_true (List.mem_filter.mp hr).2
    have hle := length_le_of_nodup_subset hnd2 hss
    simpa using hle

/-- C2 amended witness: with two distinct session ids and a singleton filter,
at most one row is returned. -/
theorem session_filter_subset_bound_witness :
    (filterBySession rowsTwoSessions ["s1"]).length ≤ (["s1"] : List String).length :=
  (session_filter_subset_bound rowsTwoSessions ["s1"]).2 (by decide)

/-- C6 counterexample: a custom free-text answer that is literally the letter
A is counted by the source's satisfaction metric (which sums over every
column starting with "Q", including suffixed custom-text columns), so the
metric differs from the claimed formula that sums over the static questions
only. -/
theorem satisfaction_metric_cex :
    satisfactionPct rowsCustomA ≠ satisfactionClaimed rowsCustomA := by
  have h1 : ((qColumns rowsCustomA).map (fun c => countVal rowsCustomA c "A")).sum = 1 := by
    decide
  have h2 : ((questionIds).map (fun c => countVal rowsCustomA c "A")).sum = 0 := by decide
  have hl : rowsCustomA.length = 1 := by decide
  have hql : questionIds.length = 12 := by decide
  simp only [satisfactionPct, satisfactionClaimed, h1, h2, hl, hql]
  norm_num

/-- C6 amended: whenever the columns starting with "Q" are exactly the static
question list plus extra columns none of whose cells equal "A" (in particular
when no custom text equals the letter A), the source's satisfaction metric
agrees with the claimed formula count-of-A / (row-count × question-count) ×
100, with 0 on an empty row set. -/
theorem satisfaction_metric_amended (rows : List FlatRow) (extra : List String)
    (h1 : qColumns rows = questionIds ++ extra)
    (h2 : ∀ c ∈ extra, countVal rows c "A" = 0) :
    satisfactionPct rows = satisfactionClaimed rows := by
  have hsum : ((qColumns rows).map (fun c => countVal rows c "A")).sum
      = ((questionIds).map (fun c => countVal rows c "A")).sum := by
    rw [h1, List.map_append, List.sum_append]
    have hz : (extra.map (fun c => countVal rows c "A")).sum = 0 := by
      apply List.sum_eq_zero
      intro x hx
      obtain ⟨c, hc, rfl⟩ := List.mem_map.mp hx
      exact h2 c hc
    rw [hz, Nat.add_zero]
  have hql : questionIds.length = 12 := by decide
  simp only [satisfactionPct, satisfactionClaimed, hsum, hql]

/-- C6 amended witness: with one all-A record and no custom columns the two
formulas agree. -/
theorem satisfaction_metric_amended_witness :
    satisfactionPct rowsAllA = satisfactionClaimed rowsAllA :=
  satisfaction_metric_amended rowsAllA [] (by decide) (by simp)

/-- C8: a submission is rejected, and nothing is persisted, exactly when some
question has answer "Other" with blank free text; the offending questions are
exactly those; and on a passing submission the record is persisted and every
"Other" question's (necessarily non-blank) free text appears in the flattened
row under the question id suffixed with the custom marker. -/
theorem submission_validation_correct (sid : String) (ts : Nat)
    (responses custom : List (String × String))
    (hnd : (responses.map Prod.fst).Nodup)
    (hsfx : ∀ p ∈ responses, ∀ p2 ∈ responses, p.1 ≠ p2.1 ++ "_custom") :
    (offendingQuestions responses custom ≠ [] →
      submitResponse sid ts responses custom = none)
    ∧ (∀ q, q ∈ offendingQuestions responses custom ↔
        alookup q responses = some "Other"
          ∧ isBlank ((alookup q custom).getD "") = true)
    ∧ (offendingQuestions responses custom = [] →
        submitResponse sid ts responses custom = some ⟨sid, ts, responses, custom⟩
        ∧ ∀ q t, alookup q responses = some "Other" → alookup q custom = some t →
            isBlank t = false
            ∧ (flattenRecord ⟨sid, ts, responses, custom⟩).get (q ++ "_custom") = some t) := by
  have hchar : ∀ q, q ∈ offendingQuestions responses custom ↔
      alookup q responses = some "Other"
        ∧ isBlank ((alookup q custom).getD "") = true := by
    intro q
    constructor
    · intro hq
      obtain ⟨p, hp, hpq⟩ := List.mem_map.mp hq
      obtain ⟨hpr, hpf⟩ := List.mem_filter.mp hp
      rw [Bool.and_eq_true, decide_eq_true_eq] at hpf
      have hpe : p = (q, "Other") := by
        obtain ⟨a, b⟩ := p
        rw [Prod.mk.injEq]
        exact ⟨hpq, hpf.1⟩
      rw [hpe] at hpr hpf
      exact ⟨alookup_of_mem_nodup hnd hpr, hpf.2⟩
    · rintro ⟨ho, hb⟩
      have hmem : (q, "Other") ∈ responses := alookup_eq_some_mem ho
      refine List.mem_map.mpr ⟨(q, "Other"), List.mem_filter.mpr ⟨hmem, ?_⟩, rfl⟩
      rw [Bool.and_eq_true, decide_eq_true_eq]
      exact ⟨rfl, hb⟩
  refine ⟨?_, hchar, ?_⟩
  · intro h
    rw [submitResponse, if_neg h]
  · intro hempty
    constructor
    · rw [submitResponse, if_pos hempty]
    · intro q t ho ht
      have hmemq : (q, "Other") ∈ responses := alookup_eq_some_mem ho
      have hnb : isBlank t = false := by
        cases hisb : isBlank t with
        | false => rfl
        | true =>
          have hoff : q ∈ offendingQuestions responses custom := by
            refine (hchar q).mpr ⟨ho, ?_⟩
            rw [ht]
            exact hisb
          rw [hempty] at hoff
          exact absurd hoff (List.not_mem_nil q)
      refine ⟨hnb, ?_⟩
      have hnone : alookup (q ++ "_custom") responses = none := by
        apply alookup_eq_none
        intro p hp
        exact hsfx p hp (q, "Other") hmemq
      show alookup (q ++ "_custom")
          (responses ++ (custom.filter (fun kv => !isBlank kv.2)).map
            (fun kv => (kv.1 ++ "_custom", kv.2))) = some t
      rw [alookup_append_of_none hnone, alookup_map_suffix]
      exact alookup_filter ht (by rw [hnb]; rfl)

/-- C8 witness: an "Other" answer with blank text is rejected, and the same
submission with non-blank text is persisted and its text appears under the
suffixed custom-text column. -/
theorem submission_validation_correct_witness :
    submitResponse "s" 0 [("Q1_Retention_Transformation", "Other")]
        [("Q1_Retention_Transformation", "")] = none
    ∧ (flattenRecord ⟨"s", 0, [("Q1_Retention_Transformation", "Other")],
          [("Q1_Retention_Transformation", "my own answer")]⟩).get
        ("Q1_Retention_Transformation" ++ "_custom") = some "my own answer" := by
  constructor
  · exact (submission_validation_correct "s" 0 [("Q1_Retention_Transformation", "Other")]
      [("Q1_Retention_Transformation", "")] (by decide) (by decide)).1 (by decide)
  · exact (((submission_validation_correct "s" 0 [("Q1_Retention_Transformation", "Other")]
      [("Q1_Retention_Transformation", "my own answer")] (by decide) (by decide)).2.2
        (by decide)).2 "Q1_Retention_Transformation" "my own answer" (by decide) (by decide)).2

/-- The form selections answering every question with choice code A. -/
def selsAllA : List (String × Selection) :=
  questionIds.map (fun q => (q, Selection.code "A"))

/-- The record the form assembles and persists for `selsAllA`. -/
def recNine : ResponseRecord :=
  ⟨"sid9", 0, buildResponses selsAllA, buildCustoms selsAllA⟩

/-- C9 counterexample: a persisted record whose every answer is the choice
code A still carries a custom-answers entry (the empty string) for Q1, so the
custom-answers mapping contains entries for questions whose selected choice
was not "Other". -/
theorem custom_entries_cex :
    submitResponse "sid9" 0 (buildResponses selsAllA) (buildCustoms selsAllA) = some recNine
    ∧ alookup "Q1_Retention_Transformation" recNine.custom_responses = some ""
    ∧ alookup "Q1_Retention_Transformation" recNine.responses = some "A"
    ∧ ("A" : String) ≠ "Other" :=
  ⟨by decide, by decide, by decide, by decide⟩

/-- C9 amended: the custom-answers mapping assembled by the form has an entry
for every question; its value is a non-empty string only where the selected
choice was "Other" (and is the empty string elsewhere). -/
theorem custom_entries_nonempty_only_other (sels : List (String × Selection)) :
    (buildCustoms sels).map Prod.fst = sels.map Prod.fst
    ∧ (buildResponses sels).map Prod.fst = sels.map Prod.fst
    ∧ (∀ q t, alookup q (buildCustoms sels) = some t → t ≠ "" →
        alookup q (buildResponses sels) = some "Other") := by
  refine ⟨?_, ?_, fun q t => alookup_buildCustoms_other q t sels⟩
  · rw [buildCustoms, List.map_map]
    rfl
  · rw [buildResponses, List.map_map]
    rfl

/-- C9 amended witness: a non-empty custom entry comes from an "Other"
selection. -/
theorem custom_entries_nonempty_only_other_witness :
    alookup "Q1_Retention_Transformation"
      (buildResponses [("Q1_Retention_Transformation", Selection.other "hello")])
        = some "Other" :=
  (custom_entries_nonempty_only_other
      [("Q1_Retention_Transformation", Selection.other "hello")]).2.2
    "Q1_Retention_Transformation" "hello" (by decide) (by decide)

/-- A record choosing "Other" for Q1 with custom text that is literally the
letter C, and choice code A everywhere else. -/
def recCustomC : ResponseRecord :=
  ⟨"s1", 0,
   questionIds.map (fun q => (q, if q = "Q1_Retention_Transformation" then "Other" else "A")),
   questionIds.map (fun q => (q, if q = "Q1_Retention_Transformation" then "C" else ""))⟩

/-- The flattened one-record data set of `recCustomC`. -/
def rowsCustomC : List FlatRow :=
  List.map flattenRecord [recCustomC]

/-- A record choosing "Other" for Q1 with ordinary free text. -/
def recCustomText : ResponseRecord :=
  ⟨"s1", 0,
   questionIds.map (fun q => (q, if q = "Q1_Retention_Transformation" then "Other" else "A")),
   questionIds.map
     (fun q => (q, if q = "Q1_Retention_Transformation" then "free text answer" else ""))⟩

/-- The flattened one-record data set of `recCustomText`. -/
def rowsCustomText : List FlatRow :=
  List.map flattenRecord [recCustomText]

/-- C10 counterexample: when the custom free text is literally the letter C,
the suffixed custom-text column is classified Concern with concern score 100,
not Neutral with score 0 as the claim states. -/
theorem custom_column_neutral_cex :
    "Q1_Retention_Transformation_custom" ∈ sentimentCols rowsCustomC
    ∧ classifyColumn rowsCustomC "Q1_Retention_Transformation_custom" = .Concern
    ∧ classifyColumn rowsCustomC "Q1_Retention_Transformation_custom" ≠ .Neutral
    ∧ concernScore rowsCustomC "Q1_Retention_Transformation_custom" ≠ 0 := by
  refine ⟨by decide, by decide, by decide, ?_⟩
  have h : countIn rowsCustomC "Q1_Retention_Transformation_custom" ["C", "D"] = 1 := by
    decide
  have hl : rowsCustomC.length = 1 := by decide
  rw [concernScore, h, hl]
  norm_num

/-- C10 amended: a suffixed custom-text column is iterated by the sentiment
classification and included in the concern ranking like any question column;
when none of its cells is one of the letter codes A-D it is classified Neutral
with concern score 0; the three sentiment class counts always sum to the
number of iterated columns, which exceeds the number of survey questions when
the custom column is present alongside all twelve question columns. -/
theorem custom_column_included_amended (rows : List FlatRow) (c : String)
    (hmem : c ∈ sentimentCols rows)
    (hv : ∀ r ∈ rows, cellIn r c ["A", "B", "C", "D"] = false) :
    classifyColumn rows c = .Neutral
    ∧ concernScore rows c = 0
    ∧ c ∈ (concernList rows).map Prod.fst
    ∧ ((sentimentCounts rows).1 + (sentimentCounts rows).2.1
        + (sentimentCounts rows).2.2 = (sentimentCols rows).length)
    ∧ ((∀ x ∈ questionIds, x ∈ sentimentCols rows) → c ∉ questionIds →
        questionIds.length < (sentimentCols rows).length) := by
  have hAB : countIn rows c ["A", "B"] = 0 := by
    apply List.countP_eq_zero.mpr
    intro r hr
    rw [cellIn_false_of_superset (by decide) (hv r hr)]
    exact Bool.false_ne_true
  have hCD : countIn rows c ["C", "D"] = 0 := by
    apply List.countP_eq_zero.mpr
    intro r hr
    rw [cellIn_false_of_superset (by decide) (hv r hr)]
    exact Bool.false_ne_true
  refine ⟨?_, ?_, ?_, ?_, ?_⟩
  · exact (classify_iff rows c).2.2.mpr (by rw [hAB, hCD])
  · rw [concernScore, hCD]
    simp
  · obtain ⟨hdf, hflt⟩ := List.mem_filter.mp hmem
    rw [Bool.and_eq_true] at hflt
    refine List.mem_map.mpr ⟨(c, concernScore rows c), ?_, rfl⟩
    refine List.mem_map.mpr ⟨c, ?_, rfl⟩
    exact List.mem_filter.mpr ⟨hdf, hflt.1⟩
  · rw [sentimentCounts_eq]
    exact countP_three_way (sentimentCols rows) (classifyColumn rows)
  · intro hsubQ hnotin
    have hnd : (c :: questionIds).Nodup := by
      rw [List.nodup_cons]
      exact ⟨hnotin, by decide⟩
    have hsub : ∀ x ∈ c :: questionIds, x ∈ sentimentCols rows := by
      intro x hx
      rcases List.mem_cons.mp hx with rfl | hx
      · exact hmem
      · exact hsubQ x hx
    have hle := length_le_of_nodup_subset hnd hsub
    rw [List.length_cons] at hle
    omega

/-- C10 amended witness: the custom column of an ordinary free-text answer is
Neutral and makes the iterated column count exceed the twelve questions. -/
theorem custom_column_included_amended_witness :
    classifyColumn rowsCustomText "Q1_Retention_Transformation_custom" = .Neutral
    ∧ questionIds.length < (sentimentCols rowsCustomText).length := by
  have h := custom_column_included_amended rowsCustomText
    "Q1_Retention_Transformation_custom" (by decide) (by decide)
  exact ⟨h.1, h.2.2.2.2 (by decide) (by decide)⟩

/-- C3: for every selected question, the per-question distribution assigns
each choice code the percentage count / total-row-count × 100; it is 0 (never
an error) when the total is 0; and over a non-empty row set in which every row
has a value for the question, the percentages over the present choice codes
sum to exactly 100. -/
theorem distribution_pct_correct (rows : List FlatRow) (q : String) :
    (∀ v, distributionPct rows q v = (countVal rows q v : ℚ) / (rows.length : ℚ) * 100)
    ∧ (rows = [] → ∀ v, distributionPct rows q v = 0)
    ∧ (rows ≠ [] → (∀ r ∈ rows, (r.get q).isSome) →
        ((presentValues rows q).map (fun v => distributionPct rows q v)).sum = 100) := by
  refine ⟨fun v => rfl, ?_, ?_⟩
  · rintro rfl v
    simp [distributionPct, countVal]
  · intro hne hall
    have h1 : ((presentValues rows q).map (fun v => countVal rows q v)).sum
        = rows.length := by
      rw [sum_countVal rows q (presentValues rows q) (nodup_dedupKeep _)]
      apply List.countP_eq_length.mpr
      intro r hr
      rcases Option.isSome_iff_exists.mp (hall r hr) with ⟨v, hv⟩
      exact decide_eq_true ⟨v, presentValues_complete hr hv, hv⟩
    have hL : (rows.length : ℚ) ≠ 0 := by
      have hl0 : rows.length ≠ 0 := by
        cases rows
        · exact absurd rfl hne
        · simp
      exact_mod_cast hl0
    have hfn : (fun v => distributionPct rows q v)
        = (fun v => (countVal rows q v : ℚ) * (100 / (rows.length : ℚ))) := by
      funext v
      rw [distributionPct, div_mul_eq_mul_div, mul_div_assoc]
    have hcast : (((presentValues rows q).map (fun v => countVal rows q v)).sum : ℚ)
        = ((presentValues rows q).map (fun v => (countVal rows q v : ℚ))).sum := by
      rw [Nat.cast_list_sum, List.map_map]
      rfl
    rw [hfn, List.sum_map_mul_right, ← hcast, h1, mul_comm, div_mul_cancel₀ _ hL]

/-- C3 witness: in the A/C/D scenario the distribution percentages over the
present values sum to 100. -/
theorem distribution_pct_correct_witness :
    rowsScenario ≠ []
    ∧ ((presentValues rowsScenario "Q1_Retention_Transformation").map
        (fun v => distributionPct rowsScenario "Q1_Retention_Transformation" v)).sum = 100 :=
  ⟨by decide,
   (distribution_pct_correct rowsScenario "Q1_Retention_Transformation").2.2
     (by decide) (by decide)⟩

/-- C4: the concern ranking is sorted by descending concern score, is a
permutation of the per-question concern list, and is stable - two questions
with equal concern score keep their original relative order. -/
theorem concern_ranking_sorted_stable (rows : List FlatRow) :
    List.Sorted descR (sortedConcerns rows)
    ∧ (sortedConcerns rows).Perm (concernList rows)
    ∧ (∀ a b : String × ℚ, a.2 = b.2 → List.Sublist [a, b] (concernList rows) →
        List.Sublist [a, b] (sortedConcerns rows)) :=
  ⟨List.sorted_insertionSort descR (concernList rows),
   List.perm_insertionSort descR (concernList rows),
   fun _ _ hab hsub => List.pair_sublist_insertionSort (le_of_eq hab.symm) hsub⟩

/-- C4 witness: two questions tie at concern score 0 and keep their original
order in the ranking. -/
theorem concern_ranking_sorted_stable_witness :
    ("Q1_Retention_Transformation", concernScore rowsTie "Q1_Retention_Transformation").2
      = ("Q2_Workload_Stress", concernScore rowsTie "Q2_Workload_Stress").2
    ∧ List.Sublist
      [("Q1_Retention_Transformation", concernScore rowsTie "Q1_Retention_Transformation"),
       ("Q2_Workload_Stress", concernScore rowsTie "Q2_Workload_Stress")]
      (sortedConcerns rowsTie) := by
  have h1 : countIn rowsTie "Q1_Retention_Transformation" ["C", "D"] = 0 := by decide
  have h2 : countIn rowsTie "Q2_Workload_Stress" ["C", "D"] = 0 := by decide
  have heq : ("Q1_Retention_Transformation",
        concernScore rowsTie "Q1_Retention_Transformation").2
      = ("Q2_Workload_Stress", concernScore rowsTie "Q2_Workload_Stress").2 := by
    show concernScore rowsTie "Q1_Retention_Transformation"
        = concernScore rowsTie "Q2_Workload_Stress"
    rw [concernScore, concernScore, h1, h2]
  refine ⟨heq, ?_⟩
  refine (concern_ranking_sorted_stable rowsTie).2.2 _ _ heq ?_
  have hlist : concernList rowsTie
      = [("Q1_Retention_Transformation", concernScore rowsTie "Q1_Retention_Transformation"),
         ("Q2_Workload_Stress", concernScore rowsTie "Q2_Workload_Stress")] := rfl
  rw [hlist]

/-- C5: a question is classified Positive exactly when its A/B count exceeds
its C/D count, Concern exactly when its C/D count exceeds its A/B count, and
Neutral exactly when the two counts are equal; the aggregate sentiment report
is, for each class, the number of iterated columns in that class. -/
theorem sentiment_classification_correct (rows : List FlatRow) (c : String) :
    (classifyColumn rows c = .Positive
      ↔ countIn rows c ["C", "D"] < countIn rows c ["A", "B"])
    ∧ (classifyColumn rows c = .Concern
      ↔ countIn rows c ["A", "B"] < countIn rows c ["C", "D"])
    ∧ (classifyColumn rows c = .Neutral
      ↔ countIn rows c ["A", "B"] = countIn rows c ["C", "D"])
    ∧ sentimentCounts rows
      = ((sentimentCols rows).countP (fun d => decide (classifyColumn rows d = .Positive)),
         (sentimentCols rows).countP (fun d => decide (classifyColumn rows d = .Neutral)),
         (sentimentCols rows).countP (fun d => decide (classifyColumn rows d = .Concern))) :=
  ⟨(classify_iff rows c).1, (classify_iff rows c).2.1, (classify_iff rows c).2.2,
   sentimentCounts_eq rows⟩

/-- C7: on an empty record set the dashboard signals the no-data state rather
than rendering, and every aggregate evaluates to a defined zero or empty
value rather than failing. -/
theorem empty_dataset_defined (sessionFilter : List String) (dateRange : Nat × Nat) :
    analyticsDashboard [] sessionFilter dateRange = .noData
    ∧ satisfactionPct [] = 0
    ∧ (∀ c, concernScore [] c = 0)
    ∧ (∀ c v, distributionPct [] c v = 0)
    ∧ sentimentCounts [] = (0, 0, 0)
    ∧ sortedConcerns [] = []
    ∧ trendCounts [] = []
    ∧ retentionConcernPct [] = 0
    ∧ highStressPct [] = 0 := by
  refine ⟨rfl, rfl, ?_, ?_, rfl, rfl, rfl, rfl, rfl⟩
  · intro c
    simp [concernScore, countIn]
  · intro c v
    simp [distributionPct, countVal]

end MyVoice
